import Mathlib

/-!
Verification of the morph-chess replication and orchestration subsystem.

The definitions below are a shallow embedding of the Python sources:

* `syncStep` / `syncRun` embed the polling loop of `sync_game_state` in
  `src/sync_gamestate2.py` (lines 37-110); `sync_gamestate` in
  `src/orchestrator.py` (lines 20-93) is the identical async variant of the
  same loop and is covered by the same embedding.
* the monitor definitions further below embed `ChessBoardMonitor` from
  `src/chess_monitor.py` and the older variant `src/chess_monitor2.py`.
* the teardown definitions embed the cleanup block of `src/orchestrator.py`
  (lines 192-210) and `src/delete_all_snapshots.py` / `src/delete_all_instances.py`.

Wall-clock times are modelled as naturals; each loop iteration reads the
clock once (the Python code calls `time.time()` a few times per iteration,
always within the same poll).  Python's float comparison
`now - last > timeout` agrees with truncated `Nat` subtraction whenever
`last ≤ now`, which holds along every modelled run because activity times
are taken from earlier clock readings.
-/

/-- One poll of the remote game-state file, as seen by the loop body of
`sync_game_state` (`src/sync_gamestate2.py` lines 66-98):
either `sftp.get` raises `FileNotFoundError`, or the blob downloads but
`json.load` raises `JSONDecodeError`, or the blob parses, in which case
`calculate_hash` returns `some` digest or `none` on an I/O error
(`calculate_hash`, lines 43-50, returns Python `None` on failure). -/
inductive PollResult where
  | fileMissing : PollResult
  | malformed : PollResult
  | retrieved (blob : String) (hash : Option String) : PollResult
deriving DecidableEq

/-- Loop-local state of `sync_game_state` (`src/sync_gamestate2.py`
lines 37-41): `last_content_hash`, `last_activity_time`,
`consecutive_unchanged`, plus the contents of the target file
`chess_autosaves/game_id_<id>.json` and, as history instrumentation, the
list of fingerprints published to it so far (oldest first). -/
structure SyncState where
  lastHash : Option String
  lastActivity : Nat
  unchangedCount : Nat
  target : Option String
  pubs : List (Option String)
deriving DecidableEq

/-- Configuration of one Replicator run: `end_time`, `game_timeout`
and `max_unchanged` from `src/sync_gamestate2.py` lines 41, 57. -/
structure SyncConfig where
  endTime : Nat
  gameTimeout : Nat
  maxUnchanged : Nat
deriving DecidableEq

/-- State at Replicator start (`src/sync_gamestate2.py` lines 38-40):
`last_content_hash = None`, `last_activity_time = time.time()` (the
argument `t0`), `consecutive_unchanged = 0`, no target file yet. -/
def initState (t0 : Nat) : SyncState :=
  { lastHash := none, lastActivity := t0, unchangedCount := 0,
    target := none, pubs := [] }

/-- One iteration of the polling loop body (`src/sync_gamestate2.py`
lines 66-107).  Returns the updated state and whether the body executed
`break` (the inactivity exit in the `FileNotFoundError` handler,
lines 97-104).  On a parsed blob the code first sets
`last_activity_time = time.time()` (line 79) and then publishes only when
`current_hash != last_content_hash` (lines 82-91). -/
def syncStep (cfg : SyncConfig) (s : SyncState) (now : Nat) (p : PollResult) :
    SyncState × Bool :=
  match p with
  | .retrieved blob h =>
      let s := { s with lastActivity := now }
      if h ≠ s.lastHash then
        ({ s with lastHash := h, unchangedCount := 0,
                  target := some blob, pubs := s.pubs ++ [h] }, false)
      else
        ({ s with unchangedCount := s.unchangedCount + 1 }, false)
  | .malformed =>
      ({ s with unchangedCount := s.unchangedCount + 1 }, false)
  | .fileMissing =>
      (s, decide (cfg.gameTimeout < now - s.lastActivity))

/-- How a Replicator run ends, with the clock reading at the exit:
the `while` guard fails on time (`timedOut`) or on the unchanged counter
(`unchangedLimit`), or the body breaks out as inactive; `pending` means the
modelled event list ran out while the loop would have kept polling. -/
inductive RunOutcome where
  | timedOut (now : Nat) : RunOutcome
  | unchangedLimit (now : Nat) : RunOutcome
  | inactive (now : Nat) : RunOutcome
  | pending : RunOutcome
deriving DecidableEq

/-- The polling loop of `sync_game_state` (`src/sync_gamestate2.py`
line 65: `while time.time() < end_time and consecutive_unchanged <= max_unchanged`),
driven by a list of (clock reading, poll result) events. -/
def syncRun (cfg : SyncConfig) (s : SyncState) :
    List (Nat × PollResult) → SyncState × RunOutcome
  | [] => (s, .pending)
  | (now, p) :: rest =>
      if cfg.endTime ≤ now then (s, .timedOut now)
      else if cfg.maxUnchanged < s.unchangedCount then (s, .unchangedLimit now)
      else
        match syncStep cfg s now p with
        | (s', true) => (s', .inactive now)
        | (s', false) => syncRun cfg s' rest

/-- Fold of the loop body over the polls that actually execute, ignoring the
exit conditions; used to state per-poll trace properties. -/
def syncPolls (cfg : SyncConfig) (s : SyncState)
    (ps : List (Nat × PollResult)) : SyncState :=
  ps.foldl (fun st np => (syncStep cfg st np.1 np.2).1) s

/-- Modelled from the spec: the sequence of fingerprints that are distinct
from the previously retained one, in observation order, starting from a
given last-published fingerprint (spec §8, monotonic publish ordering). -/
def distinctInOrder : Option String → List String → List String
  | _, [] => []
  | last, h :: t =>
      if some h = last then distinctInOrder last t
      else h :: distinctInOrder (some h) t

/-- A successful poll whose blob is its own fingerprint carrier: the loop
compares only hashes, so the blob value is irrelevant to publish decisions. -/
def okPoll (h : String) : Nat × PollResult := (0, .retrieved h (some h))

def cfgW : SyncConfig := { endTime := 100, gameTimeout := 2, maxUnchanged := 15 }

theorem syncPolls_pubs (cfg : SyncConfig) (hs : List String) :
    ∀ s : SyncState, (syncPolls cfg s (hs.map okPoll)).pubs
      = s.pubs ++ (distinctInOrder s.lastHash hs).map some := by
  induction hs with
  | nil => intro s; simp [syncPolls, distinctInOrder]
  | cons h t ih =>
      intro s
      by_cases hc : some h = s.lastHash
      · have hstep : syncPolls cfg s ((h :: t).map okPoll)
            = syncPolls cfg
                { s with lastActivity := 0, unchangedCount := s.unchangedCount + 1 }
                (t.map okPoll) := by
          simp [syncPolls, syncStep, okPoll, hc]
        rw [hstep, ih]
        simp [distinctInOrder, hc]
      · have hstep : syncPolls cfg s ((h :: t).map okPoll)
            = syncPolls cfg
                { s with lastActivity := 0, lastHash := some h, unchangedCount := 0,
                         target := some h, pubs := s.pubs ++ [some h] }
                (t.map okPoll) := by
          simp [syncPolls, syncStep, okPoll, hc]
        rw [hstep, ih]
        simp [distinctInOrder, hc]

theorem distinctInOrder_chain (hs : List String) :
    ∀ last : Option String,
      List.Chain' (fun a b => a ≠ b) (distinctInOrder last hs)
      ∧ ∀ x ∈ (distinctInOrder last hs).head?, some x ≠ last := by
  induction hs with
  | nil => intro last; exact ⟨List.chain'_nil, by simp [distinctInOrder]⟩
  | cons h t ih =>
      intro last
      by_cases hc : some h = last
      · simpa [distinctInOrder, hc] using ih last
      · obtain ⟨hch, hhd⟩ := ih (some h)
        rw [distinctInOrder, if_neg hc]
        refine ⟨List.chain'_cons'.mpr ⟨fun y hy => ?_, hch⟩, by simpa using hc⟩
        intro he
        exact hhd y hy (by rw [he])

/-- C1: the claim that a successful no-op poll (fingerprint equal to
`last_fingerprint`) leaves the last-activity timestamp unchanged is false:
`sync_game_state` sets `last_activity_time = time.time()` on every
successfully parsed retrieval (`src/sync_gamestate2.py` line 79), before
the fingerprint comparison.  Concretely, from a state with
`last_fingerprint = "h"` and `last_activity_at = 5`, a poll at time 9 that
retrieves the same fingerprint publishes nothing and increments
`unchanged_count`, yet moves the timestamp from 5 to 9. -/
theorem c1_counterexample :
    ((syncStep cfgW
        { lastHash := some "h", lastActivity := 5, unchangedCount := 0,
          target := some "b", pubs := [some "h"] } 9
        (.retrieved "b" (some "h"))).1.lastActivity ≠ 5)
    ∧ (syncStep cfgW
        { lastHash := some "h", lastActivity := 5, unchangedCount := 0,
          target := some "b", pubs := [some "h"] } 9
        (.retrieved "b" (some "h"))).1.pubs = [some "h"]
    ∧ (syncStep cfgW
        { lastHash := some "h", lastActivity := 5, unchangedCount := 0,
          target := some "b", pubs := [some "h"] } 9
        (.retrieved "b" (some "h"))).1.unchangedCount = 1 := by
  refine ⟨?_, ?_, ?_⟩ <;> simp [syncStep, cfgW]

/-- C1 (amended): the recorded last-activity timestamp advances on every
poll whose retrieval and JSON parse succeed — including a no-op poll whose
fingerprint equals `last_fingerprint` — and stays unchanged on
file-not-found and malformed-JSON polls. -/
theorem c1_amended (cfg : SyncConfig) (s : SyncState) (now : Nat)
    (blob : String) (h : Option String) :
    (syncStep cfg s now (.retrieved blob h)).1.lastActivity = now
    ∧ (syncStep cfg s now .malformed).1.lastActivity = s.lastActivity
    ∧ (syncStep cfg s now .fileMissing).1.lastActivity = s.lastActivity := by
  refine ⟨?_, rfl, rfl⟩
  by_cases hc : h = s.lastHash <;> simp [syncStep, hc]

/-- C2: over any sequence of successful polls (retrieval, parse and hash
all succeed), the fingerprints published to the publish location are
exactly the fingerprints distinct from the previously published one, in
observation order, and no fingerprint equal to the last published one is
ever republished (adjacent published fingerprints always differ). -/
theorem c2_publish_ordering (cfg : SyncConfig) (t0 : Nat) (hs : List String) :
    (syncPolls cfg (initState t0) (hs.map okPoll)).pubs
        = (distinctInOrder none hs).map some
    ∧ List.Chain' (fun a b => a ≠ b)
        ((syncPolls cfg (initState t0) (hs.map okPoll)).pubs) := by
  have h1 : (syncPolls cfg (initState t0) (hs.map okPoll)).pubs
      = (distinctInOrder none hs).map some := by
    have h0 := syncPolls_pubs cfg hs (initState t0)
    simpa [initState] using h0
  refine ⟨h1, ?_⟩
  rw [h1]
  exact (List.chain'_map some).mpr
    (((distinctInOrder_chain hs) none).1.imp (fun a b hne => by simpa using hne))

/-- C3 (amended, the surviving half): in `sync_game_state`
(`src/sync_gamestate2.py` and the identical orchestrator variant), a poll
that retrieves an unparseable blob increments `unchanged_count` by one,
does not touch the last published copy (target contents and publish
history unchanged, `last_fingerprint` unchanged), does not break out of
the loop, and — provided the loop guard still holds — the run simply
continues with the next poll.  The older `src/sync_gamestate.py` loop
instead crashes on such a poll (see the counterexample). -/
theorem c3_malformed (cfg : SyncConfig) (s : SyncState) (now : Nat)
    (rest : List (Nat × PollResult))
    (ht : now < cfg.endTime) (hcnt : s.unchangedCount ≤ cfg.maxUnchanged) :
    (syncStep cfg s now .malformed).1.unchangedCount = s.unchangedCount + 1
    ∧ (syncStep cfg s now .malformed).1.target = s.target
    ∧ (syncStep cfg s now .malformed).1.pubs = s.pubs
    ∧ (syncStep cfg s now .malformed).1.lastHash = s.lastHash
    ∧ (syncStep cfg s now .malformed).2 = false
    ∧ syncRun cfg s ((now, .malformed) :: rest)
        = syncRun cfg { s with unchangedCount := s.unchangedCount + 1 } rest := by
  refine ⟨rfl, rfl, rfl, rfl, rfl, ?_⟩
  rw [syncRun]
  rw [if_neg (by omega), if_neg (by omega)]
  rfl

/-- C3 witness: a concrete malformed poll inside an in-bounds run. -/
theorem c3_malformed_witness :
    (syncStep cfgW (initState 0) 3 .malformed).1.unchangedCount
        = (initState 0).unchangedCount + 1
    ∧ (syncStep cfgW (initState 0) 3 .malformed).1.target = (initState 0).target
    ∧ (syncStep cfgW (initState 0) 3 .malformed).1.pubs = (initState 0).pubs
    ∧ (syncStep cfgW (initState 0) 3 .malformed).1.lastHash = (initState 0).lastHash
    ∧ (syncStep cfgW (initState 0) 3 .malformed).2 = false
    ∧ syncRun cfgW (initState 0) ((3, .malformed) :: [])
        = syncRun cfgW
            { initState 0 with unchangedCount := (initState 0).unchangedCount + 1 } [] :=
  c3_malformed cfgW (initState 0) 3 [] (by decide) (by decide)

/-- C9: from the initial state (`last_content_hash = None`), a first poll
that parses and whose hash computes publishes the blob and leaves
`unchanged_count` at 0; if instead `calculate_hash` fails and returns the
`None` sentinel, the sentinel compares equal to the initial empty
fingerprint, so nothing is published and `unchanged_count` becomes 1. -/
theorem c9_first_poll (cfg : SyncConfig) (t0 now : Nat) (blob h : String) :
    ((syncStep cfg (initState t0) now (.retrieved blob (some h))).1.target = some blob
     ∧ (syncStep cfg (initState t0) now (.retrieved blob (some h))).1.pubs = [some h]
     ∧ (syncStep cfg (initState t0) now (.retrieved blob (some h))).1.unchangedCount = 0)
    ∧ ((syncStep cfg (initState t0) now (.retrieved blob none)).1.target = none
       ∧ (syncStep cfg (initState t0) now (.retrieved blob none)).1.pubs = []
       ∧ (syncStep cfg (initState t0) now (.retrieved blob none)).1.unchangedCount = 1) := by
  constructor
  · refine ⟨?_, ?_, ?_⟩ <;> simp [syncStep, initState]
  · refine ⟨?_, ?_, ?_⟩ <;> simp [syncStep, initState]

theorem syncRun_missing_no_unchangedLimit (cfg : SyncConfig) :
    ∀ (events : List (Nat × PollResult)) (s : SyncState),
      (∀ e ∈ events, e.2 = PollResult.fileMissing) →
      s.unchangedCount ≤ cfg.maxUnchanged →
      ∀ t, (syncRun cfg s events).2 ≠ RunOutcome.unchangedLimit t := by
  intro events
  induction events with
  | nil => intro s _ _ t; simp [syncRun]
  | cons e rest ih =>
      intro s hall hc t
      obtain ⟨now, p⟩ := e
      have hp : p = PollResult.fileMissing := hall (now, p) (List.mem_cons_self _ _)
      subst hp
      rw [syncRun]
      by_cases h1 : cfg.endTime ≤ now
      · simp [h1]
      · rw [if_neg h1, if_neg (by omega)]
        by_cases hb : cfg.gameTimeout < now - s.lastActivity
        · simp [syncStep, hb]
        · simp only [syncStep, decide_eq_false hb]
          exact ih s (fun e he => hall e (List.mem_cons_of_mem _ he)) hc t

/-- C4: a poll on which the remote file is not found leaves the whole
Replicator state (in particular `unchanged_count`) unmodified; it decides
the inactivity break solely by comparing elapsed time since
`last_activity_at` with the inactivity threshold; and a run consisting
solely of not-found polls, entered with the unchanged counter within
bounds, can never end with the count-based `unchanged_limit` exit. -/
theorem c4_not_found (cfg : SyncConfig) (s : SyncState) (now t : Nat)
    (events : List (Nat × PollResult))
    (hall : ∀ e ∈ events, e.2 = PollResult.fileMissing)
    (hc : s.unchangedCount ≤ cfg.maxUnchanged) :
    (syncStep cfg s now .fileMissing).1 = s
    ∧ ((syncStep cfg s now .fileMissing).2 = true
        ↔ cfg.gameTimeout < now - s.lastActivity)
    ∧ (syncRun cfg s events).2 ≠ RunOutcome.unchangedLimit t :=
  ⟨rfl, by simp [syncStep],
   syncRun_missing_no_unchangedLimit cfg events s hall hc t⟩

/-- C4 witness: two concrete not-found polls from the initial state. -/
theorem c4_not_found_witness :
    (syncStep cfgW (initState 0) 1 .fileMissing).1 = initState 0
    ∧ ((syncStep cfgW (initState 0) 1 .fileMissing).2 = true
        ↔ cfgW.gameTimeout < 1 - (initState 0).lastActivity)
    ∧ (syncRun cfgW (initState 0)
        [(1, .fileMissing), (2, .fileMissing)]).2 ≠ RunOutcome.unchangedLimit 42 :=
  c4_not_found cfgW (initState 0) 1 42 [(1, .fileMissing), (2, .fileMissing)]
    (by decide) (by decide)

theorem syncStep_lastActivity_cases (cfg : SyncConfig) (s : SyncState)
    (now : Nat) (p : PollResult) :
    (syncStep cfg s now p).1.lastActivity = now
    ∨ (syncStep cfg s now p).1.lastActivity = s.lastActivity := by
  cases p with
  | retrieved blob h =>
      left
      by_cases hc : h = s.lastHash <;> simp [syncStep, hc]
  | malformed => right; rfl
  | fileMissing => right; rfl

theorem syncStep_break_iff (cfg : SyncConfig) (s : SyncState) (now : Nat)
    (p : PollResult) (hb : (syncStep cfg s now p).2 = true) :
    cfg.gameTimeout < now - s.lastActivity ∧ (syncStep cfg s now p).1 = s := by
  cases p with
  | retrieved blob h =>
      exfalso
      by_cases hc : h = s.lastHash <;> simp [syncStep, hc] at hb
  | malformed => simp [syncStep] at hb
  | fileMissing => exact ⟨by simpa [syncStep] using hb, rfl⟩

theorem chain_le_of_le {a b : Nat} {l : List Nat} (hab : a ≤ b)
    (h : List.Chain (fun x y => x ≤ y) b l) :
    List.Chain (fun x y => x ≤ y) a l := by
  cases h with
  | nil => exact List.Chain.nil
  | cons hbc hc => exact List.Chain.cons (le_trans hab hbc) hc

/-- C5: along any run whose clock readings are nondecreasing and start no
earlier than the recorded last-activity time `t0 = s.lastActivity`, if the
Replicator declares the worker inactive at clock reading `now`, then
`t0 + T ≤ now`: inactivity is never declared strictly before `t0 + T`. -/
theorem c5_liveness_cutoff (cfg : SyncConfig) :
    ∀ (events : List (Nat × PollResult)) (s : SyncState) (now : Nat),
      List.Chain (fun x y => x ≤ y) s.lastActivity (events.map Prod.fst) →
      (syncRun cfg s events).2 = RunOutcome.inactive now →
      s.lastActivity + cfg.gameTimeout ≤ now := by
  intro events
  induction events with
  | nil =>
      intro s now _ hout
      simp [syncRun] at hout
  | cons e rest ih =>
      intro s now hchain hout
      obtain ⟨tm, p⟩ := e
      rw [List.map_cons] at hchain
      cases hchain with
      | cons h1 h2 =>
        rw [syncRun] at hout
        by_cases hend : cfg.endTime ≤ tm
        · rw [if_pos hend] at hout
          exact absurd hout (by simp)
        · rw [if_neg hend] at hout
          by_cases hmax : cfg.maxUnchanged < s.unchangedCount
          · rw [if_pos hmax] at hout
            exact absurd hout (by simp)
          · rw [if_neg hmax] at hout
            rcases hr : syncStep cfg s tm p with ⟨s', b⟩
            rw [hr] at hout
            cases b with
            | true =>
                have h3 : RunOutcome.inactive tm = RunOutcome.inactive now := hout
                have h4 : tm = now := by injection h3
                have h5 := (syncStep_break_iff cfg s tm p (by rw [hr])).1
                omega
            | false =>
                have hrec : (syncRun cfg s' rest).2 = RunOutcome.inactive now := hout
                have hcases := syncStep_lastActivity_cases cfg s tm p
                rw [hr] at hcases
                dsimp only at hcases
                rcases hcases with h5 | h5
                · have := ih s' now (by rw [h5]; exact h2) hrec
                  omega
                · have := ih s' now
                    (by rw [h5]; exact chain_le_of_le h1 h2) hrec
                  omega

/-- C5 witness: a concrete run that goes inactive at clock 5 with
threshold 2 and last activity 0. -/
theorem c5_liveness_cutoff_witness :
    (initState 0).lastActivity + cfgW.gameTimeout ≤ 5 :=
  c5_liveness_cutoff cfgW [(1, .fileMissing), (5, .fileMissing)] (initState 0) 5
    (List.Chain.cons (Nat.zero_le 1) (List.Chain.cons (by omega) List.Chain.nil))
    (by decide)

/-- Association-list model of a Python `dict` keyed by strings; `insert`
replaces the binding in place when the key exists (Python assignment) and
`erase` models `del`. -/
def SMap (α : Type) : Type := List (String × α)

instance {α : Type} [DecidableEq α] : DecidableEq (SMap α) :=
  inferInstanceAs (DecidableEq (List (String × α)))

def SMap.find {α : Type} : SMap α → String → Option α
  | [], _ => none
  | (k, v) :: t, q => if q = k then some v else SMap.find t q

def SMap.insert {α : Type} (m : SMap α) (k : String) (v : α) : SMap α :=
  match m with
  | [] => [(k, v)]
  | (k', v') :: t => if k' = k then (k, v) :: t else (k', v') :: SMap.insert t k v

def SMap.erase {α : Type} (m : SMap α) (k : String) : SMap α :=
  m.filter (fun kv => decide (kv.1 ≠ k))

theorem SMap.find_insert_self {α : Type} (m : SMap α) (k : String) (v : α) :
    (m.insert k v).find k = some v := by
  induction m with
  | nil => simp [SMap.insert, SMap.find]
  | cons kv t ih =>
      obtain ⟨k', v'⟩ := kv
      by_cases h : k' = k
      · simp [SMap.insert, h, SMap.find]
      · simp only [SMap.insert, if_neg h, SMap.find]
        rw [if_neg (fun he => h he.symm)]
        exact ih

theorem SMap.find_insert_ne {α : Type} (m : SMap α) (k q : String) (v : α)
    (hne : q ≠ k) : (m.insert k v).find q = m.find q := by
  induction m with
  | nil => simp [SMap.insert, SMap.find, hne]
  | cons kv t ih =>
      obtain ⟨k', v'⟩ := kv
      by_cases h : k' = k
      · subst h
        simp [SMap.insert, SMap.find, hne]
      · simp only [SMap.insert, if_neg h, SMap.find]
        by_cases hq : q = k'
        · simp [hq]
        · rw [if_neg hq, if_neg hq]
          exact ih

theorem SMap.find_erase {α : Type} (m : SMap α) (k q : String) :
    (m.erase k).find q = if q = k then none else m.find q := by
  induction m with
  | nil => simp [SMap.erase, SMap.find]
  | cons kv t ih =>
      obtain ⟨k', v'⟩ := kv
      by_cases h : k' = k
      · subst h
        have hf : SMap.erase ((k', v') :: t) k' = SMap.erase t k' := by
          simp [SMap.erase, List.filter_cons]
        rw [hf, ih]
        by_cases hq : q = k'
        · simp [hq]
        · simp [SMap.find, hq]
      · have hf : SMap.erase ((k', v') :: t) k = (k', v') :: SMap.erase t k := by
          simp [SMap.erase, List.filter_cons, h]
        rw [hf]
        show SMap.find ((k', v') :: SMap.erase t k) q = _
        by_cases hq : q = k'
        · subst hq
          simp [SMap.find, h]
        · simp [SMap.find, hq, ih]

/-- Per-game info kept by the monitor for each displayed game
(`src/chess_monitor.py` lines 199-205 and 232-238). -/
structure GameInfo where
  file : String
  strategy : String
  lastUpdated : String
  moveHistory : List String
  instanceId : String
deriving DecidableEq

/-- The fields read out of a parsed game file, after applying the
`.get(..., default)` fallbacks (`src/chess_monitor.py` lines 176-180). -/
structure GameData where
  fen : String
  strategyName : String
  lastUpdated : String
  moveHistory : List String
deriving DecidableEq

/-- Outcome of reading and parsing the local game file
(`src/chess_monitor.py` lines 164-174): an I/O or JSON error, a file whose
stripped content is empty, or a parsed record. -/
inductive FileRead where
  | readError : FileRead
  | emptyFile : FileRead
  | parsed (d : GameData) : FileRead
deriving DecidableEq

/-- The per-game maps of `ChessBoardMonitor` (`src/chess_monitor.py`
lines 40-48).  A board is modelled by the FEN it was built from, a Tk
frame by its grid position, a widget by `Unit`. -/
structure MonitorState where
  boards : SMap String
  boardWidgets : SMap Unit
  gameInfo : SMap GameInfo
  gameFrames : SMap (Nat × Nat)
  displayedGames : List String
  gameStateHashes : SMap String
  gameLastSeen : SMap Nat
deriving DecidableEq

/-- Where, if anywhere, the body of `create_or_update_game_display`
raises after the game file has parsed; the surrounding `except Exception`
(`src/chess_monitor.py` line 278) swallows the exception, so the state
keeps exactly the assignments that already ran.  `badFen` models
`chess.Board(fen)` raising on an invalid FEN (line 198 on the update
path, line 230 on the create path — evaluated before the corresponding
`boards` assignment completes); `badTimestamp` models
`last_updated.split` raising on a non-string (line 217 update path,
line 262 create path — after `boards` and `game_info` are assigned but
before the widget is created and the game is marked displayed). -/
inductive RaisePoint where
  | noRaise : RaisePoint
  | badFen : RaisePoint
  | badTimestamp : RaisePoint
deriving DecidableEq

/-- `ChessBoardMonitor.create_or_update_game_display`
(`src/chess_monitor.py` lines 142-281) as a state transformer.  Inputs:
the game id derived from the filename, the clock reading, the result of
`compute_game_state_hash` (`none` on error), the file-read outcome, the
raise point of the body (whether `chess.Board(fen)` or the timestamp
formatting raises, see `RaisePoint`), the instance id read from the
metadata file, and the grid position `index // cols, index % cols`.
`game_last_seen` (line 149) and the state hash (line 162) are recorded
before any code that can raise.  The update path touches only `boards`,
`game_info` and the header labels; the create path inserts into
`game_frames` (line 227) first, then `boards` and `game_info`, and only
at the end (line 275) marks the game displayed — so a mid-body raise
leaves a prefix of those assignments in place. -/
def createOrUpdate (s : MonitorState) (gameFile gameId : String) (now : Nat)
    (hash : Option String) (rd : FileRead) (exc : RaisePoint)
    (instanceId : String) (row col : Nat) : MonitorState :=
  let s := { s with gameLastSeen := s.gameLastSeen.insert gameId now }
  match hash with
  | none => s
  | some h =>
      if s.gameStateHashes.find gameId = some h then s
      else
        let s := { s with gameStateHashes := s.gameStateHashes.insert gameId h }
        match rd with
        | .readError => s
        | .emptyFile => s
        | .parsed d =>
            let info : GameInfo :=
              { file := gameFile, strategy := d.strategyName,
                lastUpdated := d.lastUpdated, moveHistory := d.moveHistory,
                instanceId := instanceId }
            if gameId ∈ s.displayedGames then
              match exc with
              | .badFen => s
              | .badTimestamp =>
                  { s with boards := s.boards.insert gameId d.fen,
                           gameInfo := s.gameInfo.insert gameId info }
              | .noRaise =>
                  { s with boards := s.boards.insert gameId d.fen,
                           gameInfo := s.gameInfo.insert gameId info }
            else
              match exc with
              | .badFen =>
                  { s with gameFrames := s.gameFrames.insert gameId (row, col) }
              | .badTimestamp =>
                  { s with gameFrames := s.gameFrames.insert gameId (row, col),
                           boards := s.boards.insert gameId d.fen,
                           gameInfo := s.gameInfo.insert gameId info }
              | .noRaise =>
                  { s with gameFrames := s.gameFrames.insert gameId (row, col),
                           boards := s.boards.insert gameId d.fen,
                           gameInfo := s.gameInfo.insert gameId info,
                           boardWidgets := s.boardWidgets.insert gameId (),
                           displayedGames := gameId :: s.displayedGames }

/-- The body of the removal loop in
`ChessBoardMonitor.check_for_missing_games` (`src/chess_monitor.py`
lines 357-374): the game is deleted from `game_frames`, `board_widgets`,
`boards`, `game_info`, `game_state_hashes` and the `displayed_games` set
(`game_last_seen` is left behind). -/
def removeGame (st : MonitorState) (gameId : String) : MonitorState :=
  { st with gameFrames := st.gameFrames.erase gameId,
            boardWidgets := st.boardWidgets.erase gameId,
            boards := st.boards.erase gameId,
            gameInfo := st.gameInfo.erase gameId,
            gameStateHashes := st.gameStateHashes.erase gameId,
            displayedGames := st.displayedGames.filter (fun g => decide (g ≠ gameId)) }

/-- The games selected for removal by `check_for_missing_games`
(`src/chess_monitor.py` lines 346-354): displayed games whose
`game_last_seen` entry (default 0) is more than `game_timeout` old. -/
def missingGames (s : MonitorState) (now timeout : Nat) : List String :=
  s.displayedGames.filter
    (fun g => decide (timeout < now - ((s.gameLastSeen.find g).getD 0)))

/-- `ChessBoardMonitor.check_for_missing_games` (`src/chess_monitor.py`
lines 341-377): removes every timed-out game and calls `rearrange_boards`
(the returned flag) exactly when at least one game was removed
(line 376: `if games_to_remove: self.rearrange_boards()`). -/
def checkForMissingGames (s : MonitorState) (now timeout : Nat) :
    MonitorState × Bool :=
  let toRemove := missingGames s now timeout
  (toRemove.foldl removeGame s, decide (toRemove ≠ []))

theorem createOrUpdate_hash (s : MonitorState) (gameFile gameId : String)
    (now : Nat) (h : String) (rd : FileRead) (exc : RaisePoint)
    (inst : String) (row col : Nat) :
    (createOrUpdate s gameFile gameId now (some h) rd exc inst
        row col).gameStateHashes.find gameId = some h := by
  unfold createOrUpdate
  by_cases hc : s.gameStateHashes.find gameId = some h
  · simp [hc]
  · cases rd with
    | readError => simp [hc, SMap.find_insert_self]
    | emptyFile => simp [hc, SMap.find_insert_self]
    | parsed d =>
        by_cases hd : gameId ∈ s.displayedGames <;> cases exc <;>
          simp [hc, hd, SMap.find_insert_self]

theorem createOrUpdate_noop (s : MonitorState) (gameFile gameId : String)
    (now : Nat) (h : String) (rd : FileRead) (exc : RaisePoint)
    (inst : String) (row col : Nat)
    (hc : s.gameStateHashes.find gameId = some h) :
    createOrUpdate s gameFile gameId now (some h) rd exc inst row col
      = { s with gameLastSeen := s.gameLastSeen.insert gameId now } := by
  unfold createOrUpdate
  simp [hc]

/-- C6: applying `create_or_update_game_display` a second time with an
identical snapshot (same file content, hence same fingerprint, same parsed
data, raise behaviour and metadata) is a no-op on the stored boards, game
info, displayed set, frames, widgets and state hashes — only the last-seen
clock moves.  This holds whatever the body's raise point, because the
state hash is recorded (line 162) before any code that can raise, so the
second call takes the early return at line 157. -/
theorem c6_upsert_idempotent (s : MonitorState) (gameFile gameId : String)
    (n1 n2 : Nat) (h : String) (rd : FileRead) (exc : RaisePoint)
    (inst : String) (row col : Nat) :
    (createOrUpdate (createOrUpdate s gameFile gameId n1 (some h) rd exc inst row col)
        gameFile gameId n2 (some h) rd exc inst row col).boards
      = (createOrUpdate s gameFile gameId n1 (some h) rd exc inst row col).boards
    ∧ (createOrUpdate (createOrUpdate s gameFile gameId n1 (some h) rd exc inst row col)
        gameFile gameId n2 (some h) rd exc inst row col).gameInfo
      = (createOrUpdate s gameFile gameId n1 (some h) rd exc inst row col).gameInfo
    ∧ (createOrUpdate (createOrUpdate s gameFile gameId n1 (some h) rd exc inst row col)
        gameFile gameId n2 (some h) rd exc inst row col).displayedGames
      = (createOrUpdate s gameFile gameId n1 (some h) rd exc inst row col).displayedGames
    ∧ (createOrUpdate (createOrUpdate s gameFile gameId n1 (some h) rd exc inst row col)
        gameFile gameId n2 (some h) rd exc inst row col).gameFrames
      = (createOrUpdate s gameFile gameId n1 (some h) rd exc inst row col).gameFrames
    ∧ (createOrUpdate (createOrUpdate s gameFile gameId n1 (some h) rd exc inst row col)
        gameFile gameId n2 (some h) rd exc inst row col).boardWidgets
      = (createOrUpdate s gameFile gameId n1 (some h) rd exc inst row col).boardWidgets
    ∧ (createOrUpdate (createOrUpdate s gameFile gameId n1 (some h) rd exc inst row col)
        gameFile gameId n2 (some h) rd exc inst row col).gameStateHashes
      = (createOrUpdate s gameFile gameId n1 (some h) rd exc inst row col).gameStateHashes := by
  have hh := createOrUpdate_hash s gameFile gameId n1 h rd exc inst row col
  rw [createOrUpdate_noop _ gameFile gameId n2 h rd exc inst row col hh]
  exact ⟨rfl, rfl, rfl, rfl, rfl, rfl⟩

/-- Every per-game map entry of a removed game is gone: the property
established for each id deleted by `check_for_missing_games`. -/
def removedEverywhere (st : MonitorState) (g : String) : Prop :=
  st.boards.find g = none ∧ st.boardWidgets.find g = none
  ∧ st.gameInfo.find g = none ∧ st.gameStateHashes.find g = none
  ∧ st.gameFrames.find g = none ∧ g ∉ st.displayedGames

/-- The consistency invariant between the displayed set and the frame map:
`displayed_games` holds exactly the keys of `game_frames`. -/
def displayedMatchesFrames (st : MonitorState) : Prop :=
  ∀ g, g ∈ st.displayedGames ↔ (st.gameFrames.find g).isSome

theorem SMap.find_erase_none {α : Type} (m : SMap α) (x g : String)
    (h : m.find g = none) : (m.erase x).find g = none := by
  rw [SMap.find_erase]
  split <;> simp [h]

theorem removeGame_self_removed (st : MonitorState) (g : String) :
    removedEverywhere (removeGame st g) g := by
  refine ⟨?_, ?_, ?_, ?_, ?_, ?_⟩ <;>
    simp [removeGame, SMap.find_erase, List.mem_filter]

theorem removeGame_keeps_removed (st : MonitorState) (x g : String)
    (h : removedEverywhere st g) : removedEverywhere (removeGame st x) g := by
  obtain ⟨h1, h2, h3, h4, h5, h6⟩ := h
  refine ⟨SMap.find_erase_none _ _ _ h1, SMap.find_erase_none _ _ _ h2,
    SMap.find_erase_none _ _ _ h3, SMap.find_erase_none _ _ _ h4,
    SMap.find_erase_none _ _ _ h5, ?_⟩
  intro hmem
  exact h6 (List.mem_filter.mp hmem).1

theorem foldl_removeGame_keeps (l : List String) :
    ∀ (st : MonitorState) (g : String), removedEverywhere st g →
      removedEverywhere (l.foldl removeGame st) g := by
  induction l with
  | nil => intro st g h; exact h
  | cons hd t ih => intro st g h; exact ih _ _ (removeGame_keeps_removed st hd g h)

theorem foldl_removeGame_removed (l : List String) :
    ∀ (st : MonitorState) (g : String), g ∈ l →
      removedEverywhere (l.foldl removeGame st) g := by
  induction l with
  | nil => intro st g h; cases h
  | cons hd t ih =>
      intro st g h
      rcases List.mem_cons.mp h with rfl | hmem
      · exact foldl_removeGame_keeps t _ g (removeGame_self_removed st g)
      · exact ih _ g hmem

theorem removeGame_inv (st : MonitorState) (x : String)
    (h : displayedMatchesFrames st) : displayedMatchesFrames (removeGame st x) := by
  intro g
  by_cases hx : g = x
  · subst hx
    simp [removeGame, SMap.find_erase, List.mem_filter]
  · have hg := h g
    simp only [removeGame, List.mem_filter, SMap.find_erase] at *
    simp [hx, hg]

theorem foldl_removeGame_inv (l : List String) :
    ∀ st : MonitorState, displayedMatchesFrames st →
      displayedMatchesFrames (l.foldl removeGame st) := by
  induction l with
  | nil => intro st h; exact h
  | cons hd t ih => intro st h; exact ih _ (removeGame_inv st hd h)

theorem createOrUpdate_inv (s : MonitorState) (gameFile gameId : String)
    (now : Nat) (hash : Option String) (rd : FileRead) (inst : String)
    (row col : Nat) (h : displayedMatchesFrames s) :
    displayedMatchesFrames
      (createOrUpdate s gameFile gameId now hash rd RaisePoint.noRaise
        inst row col) := by
  intro g
  unfold createOrUpdate
  cases hash with
  | none => simpa using h g
  | some hh =>
      by_cases hc : s.gameStateHashes.find gameId = some hh
      · simpa [hc] using h g
      · cases rd with
        | readError => simpa [hc] using h g
        | emptyFile => simpa [hc] using h g
        | parsed d =>
            by_cases hd : gameId ∈ s.displayedGames
            · simpa [hc, hd] using h g
            · by_cases hg : g = gameId
              · subst hg
                simp [hc, hd, SMap.find_insert_self]
              · simpa [hc, hd, hg, SMap.find_insert_ne _ _ _ _ hg] using h g

/-- C10 (amended): the `check_for_missing_games` removal pass always
preserves the invariant that the displayed set holds exactly the keys of
the frame map, and every game id it selects for removal ends up deleted
from all of the boards, widget, info, hash and frame maps as well as the
displayed set; `create_or_update_game_display` preserves the invariant
provided its body runs to completion without a swallowed mid-body
exception (an invalid FEN or a non-string timestamp breaks it, see the
counterexample). -/
theorem c10_map_consistency (s : MonitorState) (gameFile gameId : String)
    (n2 now timeout : Nat) (hash : Option String) (rd : FileRead)
    (inst : String) (row col : Nat) (hinv : displayedMatchesFrames s) :
    displayedMatchesFrames
      (createOrUpdate s gameFile gameId n2 hash rd RaisePoint.noRaise inst row col)
    ∧ displayedMatchesFrames (checkForMissingGames s now timeout).1
    ∧ ∀ g ∈ missingGames s now timeout,
        removedEverywhere (checkForMissingGames s now timeout).1 g := by
  refine ⟨createOrUpdate_inv s gameFile gameId n2 hash rd inst row col hinv, ?_, ?_⟩
  · exact foldl_removeGame_inv (missingGames s now timeout) s hinv
  · intro g hg
    exact foldl_removeGame_removed (missingGames s now timeout) s g hg

def monW : MonitorState :=
  { boards := [("1", "fenA")], boardWidgets := [("1", ())],
    gameInfo := [("1", { file := "f", strategy := "balanced",
                         lastUpdated := "t", moveHistory := [], instanceId := "i" })],
    gameFrames := [("1", (0, 0))], displayedGames := ["1"],
    gameStateHashes := [("1", "hA")], gameLastSeen := [("1", 0)] }

/-- C10 witness: on a monitor showing one game last seen at time 0, a
raise-free update plus a missing-games check at time 100 with timeout 10. -/
theorem c10_map_consistency_witness :
    displayedMatchesFrames
      (createOrUpdate monW "f" "1" 100 (some "hB")
        (.parsed { fen := "fenB", strategyName := "balanced",
                   lastUpdated := "t2", moveHistory := ["e2e4"] })
        RaisePoint.noRaise "i" 0 0)
    ∧ displayedMatchesFrames (checkForMissingGames monW 100 10).1
    ∧ ∀ g ∈ missingGames monW 100 10,
        removedEverywhere (checkForMissingGames monW 100 10).1 g :=
  c10_map_consistency monW "f" "1" 100 100 10 (some "hB")
    (.parsed { fen := "fenB", strategyName := "balanced",
               lastUpdated := "t2", moveHistory := ["e2e4"] }) "i" 0 0
    (by
      intro g
      by_cases hg : g = "1" <;> simp [monW, SMap.find, hg])

def monEmpty : MonitorState :=
  { boards := [], boardWidgets := [], gameInfo := [], gameFrames := [],
    displayedGames := [], gameStateHashes := [], gameLastSeen := [] }

/-- C10: the original claim fails on the create path's swallowed mid-body
exception: starting from an empty monitor that satisfies the invariant, a
parsed game file whose FEN makes `chess.Board` raise
(`src/chess_monitor.py` line 230) leaves the new id in `game_frames`
(inserted at line 227) while `displayed_games.add` (line 275) is never
reached, so the displayed set no longer matches the frame keys. -/
theorem c10_counterexample :
    displayedMatchesFrames monEmpty
    ∧ ((createOrUpdate monEmpty "f" "1" 0 (some "h")
          (.parsed { fen := "bad", strategyName := "s", lastUpdated := "t",
                     moveHistory := [] })
          RaisePoint.badFen "i" 0 0).gameFrames.find "1").isSome = true
    ∧ "1" ∉ (createOrUpdate monEmpty "f" "1" 0 (some "h")
          (.parsed { fen := "bad", strategyName := "s", lastUpdated := "t",
                     moveHistory := [] })
          RaisePoint.badFen "i" 0 0).displayedGames := by
  refine ⟨?_, ?_, ?_⟩
  · intro g
    simp [monEmpty, SMap.find]
  · decide
  · decide

/-- A callback scheduled on the Tk main thread by
`ChessBoardMonitor.monitor_files` in `src/chess_monitor.py`. -/
inductive MonAction where
  | schedUpdate (file : String) (idx cols : Nat) : MonAction
  | schedCheckMissing : MonAction
  | schedRearrange : MonAction
deriving DecidableEq

/-- One iteration of `ChessBoardMonitor.monitor_files` in
`src/chess_monitor.py` (lines 379-416), as the list of callbacks it
schedules: for every existing game file (sorted order, paired with its
index, its hash-map key — the basename without `.json` — and the result of
`compute_game_state_hash`) whose hash computed and differs from the
recorded one, a `create_or_update_game_display` callback (line 408), then
always a `check_for_missing_games` callback (line 413).
`rearrange_boards` is never scheduled by this scan; it is called only
inside `check_for_missing_games`. -/
def monitorCycle (hashes : SMap String)
    (files : List (String × String × Option String)) : List MonAction :=
  (files.enum.filterMap (fun p =>
    match p.2.2.2 with
    | none => none
    | some h =>
        if hashes.find p.2.2.1 = some h then none
        else some (MonAction.schedUpdate p.2.1 p.1 (min 3 files.length))))
  ++ [MonAction.schedCheckMissing]

/-- A callback scheduled by `ChessBoardMonitor.monitor_files` in
`src/chess_monitor2.py`. -/
inductive Mon2Action where
  | schedUpdate (file : String) : Mon2Action
  | schedCheckMissing : Mon2Action
  | schedRearrange : Mon2Action
deriving DecidableEq

/-- Python `set(a) == set(b)` on file-name lists. -/
def listSetEq (a b : List String) : Bool :=
  a.all (fun x => b.contains x) && b.all (fun x => a.contains x)

/-- The monitor state consulted by `monitor_files` in
`src/chess_monitor2.py`: the cached file list, the per-file modification
times (an absent key models Python's `None` entry), and the displayed set
(only read here, to relate the claim to "already displayed" entries). -/
structure Monitor2State where
  gameFiles : List String
  lastModified : SMap Nat
  displayedGames : List String
deriving DecidableEq

/-- One iteration of `ChessBoardMonitor.monitor_files` in
`src/chess_monitor2.py` (lines 280-340): the file set is re-globbed
(`updated` set when the set changed, lines 287-294); each cached file that
still exists and whose modification time advanced schedules an update and
sets `updated` (lines 297-319); and when `updated` is set the iteration
schedules `check_for_missing_games` and `rearrange_boards`
(lines 325-330).  Input `files` lists the currently existing files with
their modification times. -/
def monitor2Cycle (s : Monitor2State) (files : List (String × Nat)) :
    Monitor2State × List Mon2Action :=
  let currentFiles := files.map Prod.fst
  let setChanged := !(listSetEq currentFiles s.gameFiles)
  let gameFiles := if setChanged = true then currentFiles else s.gameFiles
  let step := fun (acc : SMap Nat × List Mon2Action × Bool) (f : String) =>
    match files.find? (fun p => decide (p.1 = f)) with
    | none => acc
    | some fm =>
        match acc.1.find f with
        | none => (acc.1.insert f fm.2, acc.2.1 ++ [Mon2Action.schedUpdate f], true)
        | some prev =>
            if prev < fm.2 then
              (acc.1.insert f fm.2, acc.2.1 ++ [Mon2Action.schedUpdate f], true)
            else acc
  let r := gameFiles.foldl step (s.lastModified, [], setChanged)
  let acts :=
    if r.2.2 = true then r.2.1 ++ [Mon2Action.schedCheckMissing, Mon2Action.schedRearrange]
    else r.2.1
  ({ s with gameFiles := gameFiles, lastModified := r.1 }, acts)

/-- C7: the claim fails on the `src/chess_monitor2.py` variant: with a
single already-displayed game file whose recorded modification time is 1,
a cycle that sees the same file set with modification time 2 (an in-place
snapshot update, no membership change) schedules `rearrange_boards`. -/
theorem c7_counterexample :
    ("a.json" ∈ (Monitor2State.mk ["a.json"] [("a.json", 1)] ["a.json"]).displayedGames)
    ∧ (monitor2Cycle (Monitor2State.mk ["a.json"] [("a.json", 1)] ["a.json"])
        [("a.json", 2)]).1.displayedGames = ["a.json"]
    ∧ (monitor2Cycle (Monitor2State.mk ["a.json"] [("a.json", 1)] ["a.json"])
        [("a.json", 2)]).1.gameFiles = ["a.json"]
    ∧ Mon2Action.schedRearrange
        ∈ (monitor2Cycle (Monitor2State.mk ["a.json"] [("a.json", 1)] ["a.json"])
            [("a.json", 2)]).2 := by
  refine ⟨?_, ?_, ?_, ?_⟩ <;> decide

/-- C7 (amended): in the `src/chess_monitor.py` variant, re-arrangement is
triggered exactly when the removal pass changes the visible membership,
and the periodic file-change scan never schedules a re-arrangement (so
in-place snapshot updates never trigger one there); the older
`src/chess_monitor2.py` variant, however, also schedules a re-arrangement
whenever a file's modification time advances with unchanged membership. -/
theorem c7_amended (s : MonitorState) (now timeout : Nat)
    (hashes : SMap String) (files : List (String × String × Option String)) :
    ((checkForMissingGames s now timeout).2 = true
      ↔ (checkForMissingGames s now timeout).1.displayedGames ≠ s.displayedGames)
    ∧ MonAction.schedRearrange ∉ monitorCycle hashes files := by
  constructor
  · unfold checkForMissingGames
    constructor
    · intro hflag heq
      have htr : missingGames s now timeout ≠ [] := of_decide_eq_true hflag
      obtain ⟨g, hg⟩ := List.exists_mem_of_ne_nil _ htr
      have hrem := foldl_removeGame_removed (missingGames s now timeout) s g hg
      have hgdisp : g ∈ s.displayedGames := by
        simp only [missingGames] at hg
        exact (List.mem_filter.mp hg).1
      exact hrem.2.2.2.2.2 (heq ▸ hgdisp)
    · intro hne
      refine decide_eq_true ?_
      intro htr
      rw [htr] at hne
      exact hne rfl
  · intro hmem
    rcases List.mem_append.mp hmem with hl | hr
    · obtain ⟨a, _, hfa⟩ := List.mem_filterMap.mp hl
      rcases hh : a.2.2.2 with _ | h
      · rw [hh] at hfa
        exact Option.noConfusion hfa
      · rw [hh] at hfa
        dsimp only at hfa
        by_cases hc : hashes.find a.2.2.1 = some h
        · rw [if_pos hc] at hfa
          exact Option.noConfusion hfa
        · rw [if_neg hc] at hfa
          simp at hfa
    · simp at hr

/-- C7 witness: the amended statement applied to the concrete one-game
monitor state and a concrete scan input. -/
theorem c7_amended_witness :
    ((checkForMissingGames monW 100 10).2 = true
      ↔ (checkForMissingGames monW 100 10).1.displayedGames ≠ monW.displayedGames)
    ∧ MonAction.schedRearrange ∉ monitorCycle [] [("f", "g", some "h")] :=
  c7_amended monW 100 10 [] [("f", "g", some "h")]

/-- One stop/delete pass of the orchestrator cleanup and of the bulk
deletion scripts: each resource in turn gets an attempt whose success or
failure is given by `ok`; a failure is caught (`except ApiError` in
`src/orchestrator.py` lines 197-210, `except Exception` in
`src/delete_all_snapshots.py` lines 55-68 and
`src/delete_all_instances.py` lines 62-83), logged, and the loop moves on.
Returns (successes, failures, every resource attempted, in order). -/
def teardownPass (resources : List String) (ok : String → Bool) :
    Nat × Nat × List String :=
  resources.foldl
    (fun acc r =>
      if ok r then (acc.1 + 1, acc.2.1, acc.2.2 ++ [r])
      else (acc.1, acc.2.1 + 1, acc.2.2 ++ [r]))
    (0, 0, [])

/-- The cleanup block of `src/orchestrator.py` `__main__`
(lines 192-210): unless `--persist-instances`, every listed instance gets
a `stop()` attempt; unless `--persist-snapshots`, every listed snapshot
gets a `delete()` attempt.  Returns the two attempted-resource lists. -/
def orchestratorCleanup (persistInstances persistSnapshots : Bool)
    (instances snapshots : List String)
    (stopOk delOk : String → Bool) : List String × List String :=
  ((if persistInstances = true then [] else (teardownPass instances stopOk).2.2),
   (if persistSnapshots = true then [] else (teardownPass snapshots delOk).2.2))

theorem teardownPass_attempts (resources : List String) (ok : String → Bool) :
    ∀ acc : Nat × Nat × List String,
      (resources.foldl
        (fun acc r =>
          if ok r then (acc.1 + 1, acc.2.1, acc.2.2 ++ [r])
          else (acc.1, acc.2.1 + 1, acc.2.2 ++ [r])) acc).2.2
        = acc.2.2 ++ resources
      ∧ (resources.foldl
          (fun acc r =>
            if ok r then (acc.1 + 1, acc.2.1, acc.2.2 ++ [r])
            else (acc.1, acc.2.1 + 1, acc.2.2 ++ [r])) acc).1
        + (resources.foldl
            (fun acc r =>
              if ok r then (acc.1 + 1, acc.2.1, acc.2.2 ++ [r])
              else (acc.1, acc.2.1 + 1, acc.2.2 ++ [r])) acc).2.1
        = acc.1 + acc.2.1 + resources.length := by
  induction resources with
  | nil => intro acc; simp
  | cons r t ih =>
      intro acc
      by_cases hr : ok r = true
      · simp only [List.foldl_cons, hr, if_pos]
        obtain ⟨h1, h2⟩ := ih (acc.1 + 1, acc.2.1, acc.2.2 ++ [r])
        constructor
        · rw [h1]; simp
        · rw [h2]; simp [List.length_cons]; omega
      · simp only [List.foldl_cons, hr]
        rw [if_neg (by simp [hr])]
        obtain ⟨h1, h2⟩ := ih (acc.1, acc.2.1 + 1, acc.2.2 ++ [r])
        constructor
        · rw [h1]; simp
        · rw [h2]; simp [List.length_cons]; omega

/-- C8: with the keep flags off, the cleanup attempts to stop every
instance and delete every snapshot, in order, whatever the per-resource
outcomes are — an individual failure never prevents the remaining
attempts; with a keep flag on, the corresponding resources are left alone;
and in a teardown pass every resource is attempted and the success and
failure counts always add up to the number of resources. -/
theorem c8_teardown_best_effort (instances snapshots : List String)
    (stopOk delOk : String → Bool) :
    (orchestratorCleanup false false instances snapshots stopOk delOk).1 = instances
    ∧ (orchestratorCleanup false false instances snapshots stopOk delOk).2 = snapshots
    ∧ orchestratorCleanup true true instances snapshots stopOk delOk = ([], [])
    ∧ (teardownPass snapshots delOk).2.2 = snapshots
    ∧ (teardownPass snapshots delOk).1 + (teardownPass snapshots delOk).2.1
        = snapshots.length := by
  have hi := teardownPass_attempts instances stopOk (0, 0, [])
  have hs := teardownPass_attempts snapshots delOk (0, 0, [])
  refine ⟨?_, ?_, rfl, ?_, ?_⟩
  · simpa [orchestratorCleanup, teardownPass] using hi.1
  · simpa [orchestratorCleanup, teardownPass] using hs.1
  · simpa [teardownPass] using hs.1
  · simpa [teardownPass] using hs.2


/-- One poll of the remote file as seen by the older loop in
`src/sync_gamestate.py` (lines 31-55): the download may raise
`FileNotFoundError` (caught at line 54), `json.load` at line 42 may raise
`JSONDecodeError` (caught nowhere in this file), the parsed record may
lack the "fen" key (caught at line 45), or it yields a FEN string. -/
inductive OldPollResult where
  | fileMissing : OldPollResult
  | malformed : OldPollResult
  | noFenKey : OldPollResult
  | parsedFen (fen : String) : OldPollResult
deriving DecidableEq

/-- Loop-local state of the `src/sync_gamestate.py` `__main__` loop
(lines 29-30): `last_fen`, the counter `c`, the published target contents
and, as history instrumentation, the published FEN sequence. -/
structure OldSyncState where
  lastFen : Option String
  c : Nat
  target : Option String
  pubs : List String
deriving DecidableEq

/-- How a run of the older loop ends: a failed `while` guard on time or on
the counter, an uncaught exception ending the run (`crashed`), or the
modelled event list running out (`pending`). -/
inductive OldRunOutcome where
  | timedOut (now : Nat) : OldRunOutcome
  | unchangedLimit (now : Nat) : OldRunOutcome
  | crashed (now : Nat) : OldRunOutcome
  | pending : OldRunOutcome
deriving DecidableEq

/-- The `__main__` polling loop of `src/sync_gamestate.py` (lines 27-55):
`while time.time() < end_time and c <= 15` (the limit 15 is hard-coded at
line 31).  A `JSONDecodeError` from line 42 has no handler — the inner
`try` catches only `KeyError` (line 45) and the outer one only
`FileNotFoundError` (line 54) — so it propagates through the
`try/finally` and ends the run.  A missing remote file or a record
without a "fen" key `continue`s; a first or changed FEN is published by
the atomic move at line 50 (`last_fen is None or last_fen != new_fen`);
an unchanged FEN increments `c`. -/
def oldSyncRun (endTime : Nat) (s : OldSyncState) :
    List (Nat × OldPollResult) → OldSyncState × OldRunOutcome
  | [] => (s, .pending)
  | (now, p) :: rest =>
      if endTime ≤ now then (s, .timedOut now)
      else if 15 < s.c then (s, .unchangedLimit now)
      else
        match p with
        | .fileMissing => oldSyncRun endTime s rest
        | .malformed => (s, .crashed now)
        | .noFenKey => oldSyncRun endTime s rest
        | .parsedFen f =>
            if s.lastFen = some f then
              oldSyncRun endTime { s with c := s.c + 1 } rest
            else
              oldSyncRun endTime
                { s with lastFen := some f, target := some f,
                         pubs := s.pubs ++ [f] } rest

/-- C3: the claim fails on the cited `src/sync_gamestate.py` loop: a poll
at time 1 that retrieves an unparseable blob raises an uncaught
`JSONDecodeError` and ends the run — the counter is not incremented and
polling does not continue (the later poll at time 2 is never processed);
only the last published copy is indeed left untouched. -/
theorem c3_counterexample :
    (oldSyncRun 100 { lastFen := none, c := 0, target := none, pubs := [] }
        [(1, .malformed), (2, .parsedFen "f")]).2 = OldRunOutcome.crashed 1
    ∧ (oldSyncRun 100 { lastFen := none, c := 0, target := none, pubs := [] }
        [(1, .malformed), (2, .parsedFen "f")]).1.c = 0
    ∧ (oldSyncRun 100 { lastFen := none, c := 0, target := none, pubs := [] }
        [(1, .malformed), (2, .parsedFen "f")]).1.target = none
    ∧ (oldSyncRun 100 { lastFen := none, c := 0, target := none, pubs := [] }
        [(1, .malformed), (2, .parsedFen "f")]).1.pubs = [] := by
  refine ⟨?_, ?_, ?_, ?_⟩ <;> decide
